import Mathlib

/-!
Verification development for the `simpleperf` TCP throughput tool
(`src/simpleperf/simpleperf.py`).  The Python source is shallowly embedded:
pure helpers become Lean functions, the socket loops become functions over
explicit chunk lists / elapsed-time samples with fuel, and Python's
`ValueError` paths become `Except` values.
-/

namespace Simpleperf

/-- `BUFFER_SIZE = 1000` (simpleperf.py line 18): the fixed chunk size. -/
def BUFFER_SIZE : Nat := 1000

/-- The two `ValueError` shapes raised by the parsing helpers: the spec calls
an unrecognized unit `InvalidUnit`, and a bad numeric token or a wrong token
count (Python `int()` failure or tuple-unpack failure) `MalformedInput`. -/
inductive PyErr
  | MalformedInput
  | InvalidUnit
deriving DecidableEq, Repr

instance {ε α : Type} [DecidableEq ε] [DecidableEq α] : DecidableEq (Except ε α) :=
  fun a b =>
    match a, b with
    | .ok x, .ok y => decidable_of_iff (x = y) (by simp)
    | .error x, .error y => decidable_of_iff (x = y) (by simp)
    | .ok _, .error _ => isFalse (by simp)
    | .error _, .ok _ => isFalse (by simp)

/-- The `units` dictionary `{'B': 1, 'KB': 1000, 'MB': 1000000}` shared by
`format_size` (line 41) and `parse_num_bytes` (line 126). -/
def unitFactor (u : String) : Option Int :=
  if u = "B" then some 1
  else if u = "KB" then some 1000
  else if u = "MB" then some 1000000
  else none

/-- `format_size(size, unit)` (lines 23-46): divides the byte count by the
unit factor, raising `ValueError` (`InvalidUnit`) for an unsupported unit. -/
def format_size (size : ℚ) (unit : String) : Except PyErr ℚ :=
  match unitFactor unit with
  | none => .error .InvalidUnit
  | some f => .ok (size / (f : ℚ))

/-- `calculate_rate(data, elapsed_time)` (lines 49-69):
`(data * 8 / 1000000) / elapsed_time`, i.e. megabits per second. -/
def calculate_rate (data elapsed_time : ℚ) : ℚ :=
  (data * 8 / 1000000) / elapsed_time

/-- Splitter on whitespace runs over a character list: `acc` holds the
characters of the token being read, in reverse. -/
def splitWsAux : List Char → List Char → List (List Char)
  | [], acc => if acc = [] then [] else [acc.reverse]
  | c :: rest, acc =>
    if c.isWhitespace then
      if acc = [] then splitWsAux rest []
      else acc.reverse :: splitWsAux rest []
    else splitWsAux rest (c :: acc)

/-- Python's `str.strip().split()`: split on whitespace runs, dropping empty
tokens (so leading/trailing whitespace is irrelevant). -/
def pySplit (s : String) : List String :=
  (splitWsAux s.toList []).map List.asString

/-- A non-empty all-digit character list read as a decimal `Nat`. -/
def digitsToNat (cs : List Char) : Option Nat :=
  if cs = [] then none
  else if cs.all Char.isDigit then
    some (cs.foldl (fun acc c => acc * 10 + (c.toNat - 48)) 0)
  else none

/-- Python's `int(token)` on a whitespace-free token: an optional sign
followed by at least one digit; anything else raises `ValueError`. -/
def pyInt (s : String) : Option Int :=
  match s.toList with
  | '-' :: rest => (digitsToNat rest).map (fun n => -(n : Int))
  | '+' :: rest => (digitsToNat rest).map (fun n => (n : Int))
  | cs => (digitsToNat cs).map (fun n => (n : Int))

/-- `parse_num_bytes(num_string)` (lines 106-135): empty input gives `None`;
otherwise strip/split must yield exactly two tokens (else the tuple unpack
raises `ValueError`, i.e. `MalformedInput`), the first token goes through
`int()` (failure is `MalformedInput`), and only then is the unit looked up
(an unknown unit raises the `InvalidUnit` `ValueError`).  On success the
integer is scaled by the unit factor. -/
def parse_num_bytes (num_string : String) : Except PyErr (Option Int) :=
  if num_string = "" then .ok none
  else
    match pySplit num_string with
    | [numTok, unitTok] =>
      match pyInt numTok with
      | none => .error .MalformedInput
      | some n =>
        match unitFactor unitTok with
        | none => .error .InvalidUnit
        | some f => .ok (some (n * f))
    | _ => .error .MalformedInput

/-- The 3-byte termination sentinel `b'BYE'`. -/
def BYE : List Nat := [66, 89, 69]

/-- The 8-byte acknowledgment `b'ACK: BYE'`. -/
def ACK_BYE : List Nat := [65, 67, 75, 58, 32, 66, 89, 69]

/-- `b'BYE' in data`: substring (infix) containment of the sentinel. -/
def containsBYE (data : List Nat) : Bool :=
  decide (BYE <:+: data)

/-- The receive loop of `handle_client` (lines 222-239), over the sequence of
chunks successive `recv` calls return (an exhausted list, like an explicit
empty chunk, models the peer closing so `recv` yields `b''`).  Returns the
final `total_received` and whether `b'ACK: BYE'` was sent: an empty chunk
ends the loop with no acknowledgment; a chunk containing `BYE` triggers the
acknowledgment, credits `len(data) - len(b'BYE')` and stops; any other chunk
credits its full length and the loop continues. -/
def handle_client_recv : List (List Nat) → Nat × Bool
  | [] => (0, false)
  | data :: rest =>
    if data = [] then (0, false)
    else if containsBYE data then (data.length - 3, true)
    else
      let r := handle_client_recv rest
      (data.length + r.1, r.2)

/-- The mutable local state of `client_connection`'s send loop
(lines 424-470): running totals, the interval window, the byte-cap
remainder, the current length of `data_to_send` (the `[:remaining_bytes]`
slice persists across iterations), and the interval rows printed so far
(each recorded as its `(interval_start, interval_stop)` window). -/
structure ClientState where
  total_sent : Nat
  last_interval_sent : Nat
  interval_start : ℚ
  interval_stop : ℚ
  remaining_bytes : Int
  data_len : Nat
  events : List (ℚ × ℚ)
deriving DecidableEq, Repr

/-- The configuration a client session reads: `args.interval`, `args.time`
and the parsed `args.num` byte cap (`none` when `--num` is the empty
string, i.e. falsy). -/
structure ClientConfig where
  interval : ℚ
  time : ℚ
  num : Option Int
deriving DecidableEq, Repr

/-- The initializations at lines 424-448: zero totals, window
`[0, args.interval)`, `remaining_bytes` set from `parse_num_bytes` when a
cap is configured (0 otherwise), and a 1000-byte `data_to_send`. -/
def initState (cfg : ClientConfig) : ClientState :=
  { total_sent := 0
    last_interval_sent := 0
    interval_start := 0
    interval_stop := cfg.interval
    remaining_bytes := cfg.num.getD 0
    data_len := BUFFER_SIZE
    events := [] }

/-- The interval check at lines 454-458: when `args.interval > 0` and the
elapsed time has reached `interval_stop`, print one interval row (recorded
in `events`), move `last_interval_sent` to the current total, and slide the
window forward by one interval length. -/
def fireInterval (cfg : ClientConfig) (e : ℚ) (st : ClientState) : ClientState :=
  if 0 < cfg.interval ∧ st.interval_stop ≤ e then
    { st with
      events := st.events ++ [(st.interval_start, st.interval_stop)]
      last_interval_sent := st.total_sent
      interval_start := st.interval_stop
      interval_stop := st.interval_stop + cfg.interval }
  else st

/-- The send loop at lines 451-470, driven by the successive readings of
`time.time() - start_time` (`times i` is the reading at iteration `i`) and
bounded by fuel (`none` means the fuel ran out before the loop broke).
Each iteration: take the elapsed reading, run the interval check, break if
the duration is reached; with a byte cap, break once `remaining_bytes <= 0`,
otherwise slice `data_to_send` to `remaining_bytes` and account the slice;
then send and add the sent length to `total_sent`.  Returns the final state
and the elapsed reading `elapsed_time` held at the break. -/
def client_send_loop (cfg : ClientConfig) (times : Nat → ℚ) :
    Nat → Nat → ClientState → Option (ClientState × ℚ)
  | 0, _, _ => none
  | fuel + 1, i, st =>
    let e := times i
    let st1 := fireInterval cfg e st
    if cfg.time ≤ e then some (st1, e)
    else
      match cfg.num with
      | some _ =>
        if st1.remaining_bytes ≤ 0 then some (st1, e)
        else
          let sendLen := min st1.data_len st1.remaining_bytes.toNat
          client_send_loop cfg times fuel (i + 1)
            { st1 with
              data_len := sendLen
              remaining_bytes := st1.remaining_bytes - sendLen
              total_sent := st1.total_sent + sendLen }
      | none =>
        client_send_loop cfg times fuel (i + 1)
          { st1 with total_sent := st1.total_sent + st1.data_len }

/-- `min_duration = 0.1` (line 438): the elapsed-time floor. -/
def min_duration : ℚ := 1 / 10

/-- `remaining_duration = min_duration - elapsed_time` (line 473). -/
def remaining_duration (elapsed : ℚ) : ℚ :=
  min_duration - elapsed

/-- Lines 476-477: the session sleeps for `remaining_duration` exactly when
it is positive, else not at all. -/
def sleep_amount (elapsed : ℚ) : ℚ :=
  if 0 < remaining_duration elapsed then remaining_duration elapsed else 0

/-- The `--format` (`-f`) argument is restricted by argparse to the choices
`B`, `KB`, `MB` (line 549), so inside a session the display unit is always
one of these three. -/
inductive FormatUnit
  | B
  | KB
  | MB
deriving DecidableEq, Repr

/-- The divisor `units[unit]` for a valid display unit. -/
def FormatUnit.factor : FormatUnit → ℚ
  | .B => 1
  | .KB => 1000
  | .MB => 1000000

/-- `format_size` specialized to the three argparse-validated units, on
which it never raises. -/
def format_size_u (size : ℚ) (u : FormatUnit) : ℚ :=
  size / u.factor

/-- The tuple `(args.serverip, args.port, elapsed_time, sent_data, rate)`
appended to the shared `results_list` at line 499. -/
structure SessionResult where
  serverip : String
  port : Nat
  elapsed_time : ℚ
  sent_data : ℚ
  rate : ℚ
deriving DecidableEq, Repr

/-- The post-sentinel phase of `client_connection` (lines 482-503), as a
function of the acknowledgment `recv` outcome: `none` models
`socket.timeout` (no reply within the 5-second timeout), `some a` a reply
of bytes `a`.  Returns the result appended to `results_list` (if any) and
whether `client_socket.close()` ran.  On timeout: error message, close,
return — nothing appended.  On the exact `b'ACK: BYE'` reply: recompute
elapsed, format the total, compute the rate, append.  On any other reply:
error message, nothing appended.  Both non-timeout paths reach the final
`close()`. -/
def client_finalize (serverip : String) (port : Nat) (fmt : FormatUnit)
    (total_sent : Nat) (final_elapsed : ℚ) (ack : Option (List Nat)) :
    Option SessionResult × Bool :=
  match ack with
  | none => (none, true)
  | some a =>
    if a = ACK_BYE then
      (some { serverip := serverip
              port := port
              elapsed_time := final_elapsed
              sent_data := format_size_u (total_sent : ℚ) fmt
              rate := calculate_rate (total_sent : ℚ) final_elapsed }, true)
    else (none, true)

/-- The shared `results_list` after all sessions join: each session
contributed its appended result (or nothing), in completion order. -/
def results_collection (outcomes : List (Option SessionResult)) : List SessionResult :=
  outcomes.filterMap id

/-- One line printed by the orchestrator's final report: the
`print_header` line or one `print_final_result` row. -/
inductive OutLine
  | header
  | row (r : SessionResult)
deriving DecidableEq, Repr

/-- Lines 386-389 of `create_parallel_connections`: after all processes
join, print the header once, then one final-result row per entry of the
shared list, in insertion order. -/
def orchestrator_output (outcomes : List (Option SessionResult)) : List OutLine :=
  OutLine.header :: (results_collection outcomes).map OutLine.row

/-- Lines 374-381 of `create_parallel_connections`: spawn exactly
`parallel` sessions, each running `client_connection`; session `j` is
summarized by its totals, final elapsed reading and acknowledgment
outcome, and contributes what `client_finalize` appends. -/
def session_outcomes (parallel : Nat) (serverip : String) (port : Nat)
    (fmt : FormatUnit) (totals : Nat → Nat) (elapseds : Nat → ℚ)
    (acks : Nat → Option (List Nat)) : List (Option SessionResult) :=
  (List.range parallel).map
    (fun j => (client_finalize serverip port fmt (totals j) (elapseds j) (acks j)).1)

/-- The whole client run's final report: join all sessions, then print. -/
def client_run_output (parallel : Nat) (serverip : String) (port : Nat)
    (fmt : FormatUnit) (totals : Nat → Nat) (elapseds : Nat → ℚ)
    (acks : Nat → Option (List Nat)) : List OutLine :=
  orchestrator_output (session_outcomes parallel serverip port fmt totals elapseds acks)

/-- Which mode `main` dispatches to. -/
inductive RunMode
  | server
  | client
deriving DecidableEq, Repr

/-- The dispatch logic of `main` (lines 566-579): with neither flag, print
an error and `sys.exit(1)`; with `-s`, run server mode (duration is not
checked); otherwise run client mode only when `args.time > 0`, else print
an error — and fall off `main`, so the process still exits with status 0.
Result: (exit status, printed error messages, mode actually run). -/
def mainDispatch (server client : Bool) (time : Int) : Nat × List String × Option RunMode :=
  if ¬server ∧ ¬client then
    (1, ["Error: you must run either in server or client mode"], none)
  else if server then
    (0, [], some .server)
  else if 0 < time then
    (0, [], some .client)
  else
    (0, ["Error: the -t (time) operation must be greater that 0."], none)

/-- The first `k` interval windows of length `I`:
`[0, I), [I, 2I), ..., [(k-1)I, kI)`. -/
def windows (I : ℚ) (k : Nat) : List (ℚ × ℚ) :=
  (List.range k).map (fun j => ((j : ℚ) * I, ((j : ℚ) + 1) * I))

/-- A concrete session configuration: one-second interval, one-second
duration, no byte cap. -/
def cfgW7 : ClientConfig :=
  { interval := 1, time := 1, num := none }

/-- The state in which `client_send_loop` ends under `cfgW7` when the
elapsed readings are `0, 1, 2, ...`: one chunk sent, one interval row. -/
def stW7 : ClientState :=
  { total_sent := 1000
    last_interval_sent := 1000
    interval_start := 1
    interval_stop := 2
    remaining_bytes := 0
    data_len := 1000
    events := [(0, 1)] }

/-! ## Helper lemmas -/

/-- A nonempty input splitting into an integer token and a recognized unit
token parses to the integer scaled by the unit factor. -/
theorem parse_num_bytes_scaled (s ntok utok : String) (n f : Int)
    (hs : s ≠ "") (hsplit : pySplit s = [ntok, utok])
    (hint : pyInt ntok = some n) (hfact : unitFactor utok = some f) :
    parse_num_bytes s = .ok (some (n * f)) := by
  simp only [parse_num_bytes, if_neg hs, hsplit, hint, hfact]

/-- A nonempty input splitting into two tokens whose numeric token is not
an integer fails with `MalformedInput`. -/
theorem parse_num_bytes_int_fail (s ntok utok : String)
    (hs : s ≠ "") (hsplit : pySplit s = [ntok, utok]) (hint : pyInt ntok = none) :
    parse_num_bytes s = .error .MalformedInput := by
  simp only [parse_num_bytes, if_neg hs, hsplit, hint]

/-- A nonempty input that does not split into exactly two tokens fails with
`MalformedInput` (the tuple unpack raises). -/
theorem parse_num_bytes_token_count (s : String)
    (hs : s ≠ "") (hlen : (pySplit s).length ≠ 2) :
    parse_num_bytes s = .error .MalformedInput := by
  rcases h : pySplit s with _ | ⟨a, _ | ⟨b, _ | ⟨c, l⟩⟩⟩
  · simp only [parse_num_bytes, if_neg hs, h]
  · simp only [parse_num_bytes, if_neg hs, h]
  · exact absurd (by rw [h]; rfl) hlen
  · simp only [parse_num_bytes, if_neg hs, h]

/-! ## Claim theorems -/

/-- C6: `parse_num_bytes` contract: the empty string yields `None`; a
well-formed `<integer> <unit>` input with unit in {B, KB, MB} yields the
integer scaled by 1, 1000 or 1000000 (so `20000 B` gives 20000 and `3 KB`
gives 3000); an unrecognized unit token fails with `InvalidUnit` (so
`5 XB` does); a non-integer numeric token or a wrong token count fails
with `MalformedInput`. -/
theorem parse_num_bytes_contract :
    parse_num_bytes "" = .ok none ∧
    (∀ (s ntok utok : String) (n f : Int), s ≠ "" →
      pySplit s = [ntok, utok] → pyInt ntok = some n → unitFactor utok = some f →
      parse_num_bytes s = .ok (some (n * f))) ∧
    parse_num_bytes "20000 B" = .ok (some 20000) ∧
    parse_num_bytes "3 KB" = .ok (some 3000) ∧
    parse_num_bytes "5 XB" = .error .InvalidUnit ∧
    (∀ (s ntok utok : String), s ≠ "" →
      pySplit s = [ntok, utok] → pyInt ntok = none →
      parse_num_bytes s = .error .MalformedInput) ∧
    (∀ s : String, s ≠ "" → (pySplit s).length ≠ 2 →
      parse_num_bytes s = .error .MalformedInput) :=
  ⟨by decide, parse_num_bytes_scaled, by decide, by decide, by decide,
   parse_num_bytes_int_fail, parse_num_bytes_token_count⟩

/-- C6 witness: the contract instantiated at concrete inputs. -/
theorem parse_num_bytes_contract_witness :
    parse_num_bytes "7 MB" = .ok (some 7000000) ∧
    parse_num_bytes "2.5 KB" = .error .MalformedInput ∧
    parse_num_bytes "1 2 3" = .error .MalformedInput := by
  obtain ⟨-, h2, -, -, -, h6, h7⟩ := parse_num_bytes_contract
  exact ⟨h2 "7 MB" "7" "MB" 7 1000000 (by decide) (by decide) (by decide) (by decide),
         h6 "2.5 KB" "2.5" "KB" (by decide) (by decide) (by decide),
         h7 "1 2 3" (by decide) (by decide)⟩

/-- C8: unit-conversion homomorphism: for every non-negative byte count x,
`format_size x KB` scaled by 1000 equals `format_size x B`, exactly over
exact (rational) arithmetic, because `format_size` divides by 1 for B and
by 1000 for KB. -/
theorem format_size_homomorphism (x : ℚ) (_hx : 0 ≤ x) :
    (format_size x "KB").map (fun v => v * 1000) = format_size x "B" := by
  have h1 : unitFactor "KB" = some 1000 := by decide
  have h2 : unitFactor "B" = some 1 := by decide
  simp only [format_size, h1, h2, Except.map, Except.ok.injEq]
  push_cast
  ring

/-- C8 witness: the homomorphism at x = 7. -/
theorem format_size_homomorphism_witness :
    (0 : ℚ) ≤ 7 ∧
    (format_size 7 "KB").map (fun v => v * 1000) = format_size 7 "B" :=
  ⟨by norm_num, format_size_homomorphism 7 (by norm_num)⟩

theorem fireInterval_total_sent (cfg : ClientConfig) (e : ℚ) (st : ClientState) :
    (fireInterval cfg e st).total_sent = st.total_sent := by
  unfold fireInterval
  split <;> rfl

theorem fireInterval_remaining_bytes (cfg : ClientConfig) (e : ℚ) (st : ClientState) :
    (fireInterval cfg e st).remaining_bytes = st.remaining_bytes := by
  unfold fireInterval
  split <;> rfl

theorem fireInterval_data_len (cfg : ClientConfig) (e : ℚ) (st : ClientState) :
    (fireInterval cfg e st).data_len = st.data_len := by
  unfold fireInterval
  split <;> rfl

/-- With a zero interval the check at line 454 is never true, so the
reporter is the identity on the state. -/
theorem fireInterval_of_interval_zero (cfg : ClientConfig) (hI : cfg.interval = 0)
    (e : ℚ) (st : ClientState) : fireInterval cfg e st = st := by
  unfold fireInterval
  rw [if_neg]
  rintro ⟨h, -⟩
  rw [hI] at h
  exact lt_irrefl 0 h

/-- With a negative byte cap the send loop breaks at its first `num` check,
before any `sendall`, so it sends zero payload bytes. -/
theorem client_send_loop_neg_cap (cfg : ClientConfig) (times : Nat → ℚ) (fuel : Nat)
    (m : Int) (hnum : cfg.num = some m) (hm : m < 0) (hfuel : 0 < fuel) :
    ∃ st' e, client_send_loop cfg times fuel 0 (initState cfg) = some (st', e) ∧
      st'.total_sent = 0 := by
  obtain ⟨f, rfl⟩ : ∃ f, fuel = f + 1 := ⟨fuel - 1, by omega⟩
  refine ⟨fireInterval cfg (times 0) (initState cfg), times 0, ?_,
    by rw [fireInterval_total_sent]; rfl⟩
  by_cases ht : cfg.time ≤ times 0
  · simp only [client_send_loop, if_pos ht]
  · have hrem : (fireInterval cfg (times 0) (initState cfg)).remaining_bytes ≤ 0 := by
      rw [fireInterval_remaining_bytes]
      show (cfg.num.getD 0) ≤ 0
      rw [hnum]
      exact le_of_lt hm
    simp only [client_send_loop, if_neg ht, hnum, if_pos hrem]

/-- C9 counterexample: the claim's example is wrong on the code: `-5 B`
scales by factor 1 and parses to -5, not -5000. -/
theorem parse_neg_example_counterexample :
    parse_num_bytes "-5 B" = .ok (some (-5)) ∧
    ¬ parse_num_bytes "-5 B" = .ok (some (-5000)) := by
  decide

/-- C9 (amended): `parse_num_bytes` performs no non-negativity check — every
integer token, negative included, with a valid unit is scaled by the unit
factor (so `-5 B` gives -5 and `-5 KB` gives -5000), so this function does
not enforce the configuration invariant that a byte cap is non-negative;
with a negative parsed cap the client send loop stops before sending any
payload byte. -/
theorem parse_no_nonneg_check (s ntok utok : String) (n f : Int)
    (hs : s ≠ "") (hsplit : pySplit s = [ntok, utok])
    (hint : pyInt ntok = some n) (hfact : unitFactor utok = some f) :
    parse_num_bytes s = .ok (some (n * f)) ∧
    parse_num_bytes "-5 B" = .ok (some (-5)) ∧
    parse_num_bytes "-5 KB" = .ok (some (-5000)) ∧
    (∀ (cfg : ClientConfig) (times : Nat → ℚ) (fuel : Nat) (m : Int),
      cfg.num = some m → m < 0 → 0 < fuel →
      ∃ st' e, client_send_loop cfg times fuel 0 (initState cfg) = some (st', e) ∧
        st'.total_sent = 0) :=
  ⟨parse_num_bytes_scaled s ntok utok n f hs hsplit hint hfact, by decide, by decide,
   fun cfg times fuel m hnum hm hfuel =>
     client_send_loop_neg_cap cfg times fuel m hnum hm hfuel⟩

/-- C9 witness: a negative token with the MB unit, and a run with cap -5
sending nothing. -/
theorem parse_no_nonneg_check_witness :
    parse_num_bytes "-7 MB" = .ok (some (-7000000)) ∧
    (∃ st' e,
      client_send_loop ⟨0, 1, some (-5)⟩ (fun _ => 0) 1 0 (initState ⟨0, 1, some (-5)⟩) =
        some (st', e) ∧ st'.total_sent = 0) := by
  obtain ⟨h1, -, -, h4⟩ :=
    parse_no_nonneg_check "-7 MB" "-7" "MB" (-7) 1000000
      (by decide) (by decide) (by decide) (by decide)
  exact ⟨h1, h4 _ _ 1 (-5) rfl (by norm_num) (by norm_num)⟩

/-- C4 counterexample: in client mode with duration 0 the program prints
the duration error but falls off `main` without `sys.exit`, so the process
exit status is 0 — not the non-zero status the claim requires. -/
theorem main_duration_exit_counterexample :
    (mainDispatch false true 0).1 = 0 ∧ (mainDispatch false true 0).2.1 ≠ [] := by
  decide

/-- C4 (amended): the process exits with status 1 and an error message when
neither server nor client mode is selected; with server mode it runs the
server regardless of duration; in client mode it runs the client only when
the duration is positive, and with a non-positive duration it prints an
error message and runs nothing — but still exits with status 0. -/
theorem main_exit_behavior (server client : Bool) (t : Int) :
    (server = false → client = false →
      mainDispatch server client t =
        (1, ["Error: you must run either in server or client mode"], none)) ∧
    (server = true → mainDispatch server client t = (0, [], some .server)) ∧
    (server = false → client = true → 0 < t →
      mainDispatch server client t = (0, [], some .client)) ∧
    (server = false → client = true → t ≤ 0 →
      mainDispatch server client t =
        (0, ["Error: the -t (time) operation must be greater that 0."], none)) := by
  refine ⟨?_, ?_, ?_, ?_⟩
  · rintro rfl rfl; rfl
  · rintro rfl; simp [mainDispatch]
  · rintro rfl rfl ht; simp [mainDispatch, ht]
  · rintro rfl rfl ht; simp [mainDispatch, not_lt.mpr ht]

/-- C4 witness: the amended dispatch behavior at concrete flag/duration
combinations. -/
theorem main_exit_behavior_witness :
    mainDispatch false false 25 =
      (1, ["Error: you must run either in server or client mode"], none) ∧
    mainDispatch true false 25 = (0, [], some .server) ∧
    mainDispatch false true 25 = (0, [], some .client) ∧
    mainDispatch false true 0 =
      (0, ["Error: the -t (time) operation must be greater that 0."], none) :=
  ⟨(main_exit_behavior false false 25).1 rfl rfl,
   (main_exit_behavior true false 25).2.1 rfl,
   (main_exit_behavior false true 25).2.2.1 rfl rfl (by norm_num),
   (main_exit_behavior false true 0).2.2.2 rfl rfl (by norm_num)⟩

/-- C3: after sending the sentinel, the session closes the socket on every
path, and it appends a `SessionResult` to the shared collection exactly
when a reply arrived (within the 5-second timeout, `ack = some _`) and
equals the 8 bytes `ACK: BYE`; the appended result is computed from the
total bytes sent, the recomputed elapsed time and the configured unit. -/
theorem ack_result_appended_iff (serverip : String) (port : Nat) (fmt : FormatUnit)
    (total : Nat) (e : ℚ) (ack : Option (List Nat)) :
    (client_finalize serverip port fmt total e ack).2 = true ∧
    ((client_finalize serverip port fmt total e ack).1.isSome ↔ ack = some ACK_BYE) ∧
    (ack = some ACK_BYE →
      (client_finalize serverip port fmt total e ack).1 =
        some { serverip := serverip, port := port, elapsed_time := e,
               sent_data := format_size_u (total : ℚ) fmt,
               rate := calculate_rate (total : ℚ) e }) := by
  rcases ack with _ | a
  · simp [client_finalize]
  · by_cases h : a = ACK_BYE <;> simp [client_finalize, h]

/-- C3 witness: an exact acknowledgment produces the appended result. -/
theorem ack_result_appended_iff_witness :
    (client_finalize "10.0.0.2" 8088 FormatUnit.MB 5000 1 (some ACK_BYE)).1 =
      some { serverip := "10.0.0.2", port := 8088, elapsed_time := 1,
             sent_data := format_size_u ((5000 : Nat) : ℚ) FormatUnit.MB,
             rate := calculate_rate ((5000 : Nat) : ℚ) 1 } :=
  (ack_result_appended_iff "10.0.0.2" 8088 FormatUnit.MB 5000 1 (some ACK_BYE)).2.2 rfl

/-- C1: server-side session accounting: each non-sentinel, non-empty chunk
is credited in full and receiving continues; the first chunk containing
`BYE` triggers the 8-byte acknowledgment, is credited minus exactly 3
bytes, and ends the loop, so the final total is the sum of the prior chunk
lengths plus the sentinel chunk's length minus 3; and the acknowledgment
is sent only upon receiving the sentinel. -/
theorem server_session_accounting (pre : List (List Nat)) (s : List Nat)
    (rest : List (List Nat))
    (hpre : ∀ c ∈ pre, containsBYE c = false ∧ c ≠ [])
    (hs : containsBYE s = true) :
    handle_client_recv (pre ++ s :: rest) =
      ((pre.map List.length).sum + (s.length - 3), true) ∧
    (∀ cs : List (List Nat), (∀ c ∈ cs, containsBYE c = false) →
      (handle_client_recv cs).2 = false) := by
  constructor
  · induction pre with
    | nil =>
      have hne : s ≠ [] := by
        intro h
        rw [h] at hs
        exact absurd hs (by decide)
      simp [handle_client_recv, hne, hs]
    | cons c pre ih =>
      obtain ⟨hc1, hc2⟩ := hpre c (by simp)
      have ih' := ih (fun d hd => hpre d (by simp [hd]))
      have hstep : handle_client_recv (c :: (pre ++ s :: rest)) =
          (c.length + (handle_client_recv (pre ++ s :: rest)).1,
           (handle_client_recv (pre ++ s :: rest)).2) := by
        simp [handle_client_recv, hc2, hc1]
      rw [List.cons_append, hstep, ih', List.map_cons, List.sum_cons]
      exact Prod.ext (by omega) rfl
  · intro cs
    induction cs with
    | nil => intro _; rfl
    | cons c cs ih =>
      intro hcs
      by_cases hc : c = []
      · simp [handle_client_recv, hc]
      · have h1 := hcs c (by simp)
        simp only [handle_client_recv, if_neg hc, h1, Bool.false_eq_true, if_false]
        exact ih (fun d hd => hcs d (by simp [hd]))

/-- C1 witness: two data chunks then a chunk trailing the sentinel. -/
theorem server_session_accounting_witness :
    handle_client_recv [[48, 48], [49], [50, 66, 89, 69]] = (4, true) :=
  (server_session_accounting [[48, 48], [49]] [50, 66, 89, 69] []
    (by decide) (by decide)).1

/-- C10: because the session sleeps out `sleep_amount e` (the positive part
of `min_duration - e`) before sending the sentinel, and the recorded
elapsed time `f` is re-measured after the acknowledgment round-trip (hence
`e + sleep_amount e ≤ f` on a monotone clock whose sleep waits at least
what is requested), every appended result has elapsed time at least
`min_duration = 0.1`; in particular the divisor the client passes to
`calculate_rate` is never zero. -/
theorem session_elapsed_floor (e f : ℚ) (hf : e + sleep_amount e ≤ f) :
    min_duration ≤ f ∧ f ≠ 0 := by
  have hm : min_duration ≤ f := by
    unfold sleep_amount remaining_duration at hf
    by_cases h : 0 < min_duration - e
    · rw [if_pos h] at hf; linarith
    · rw [if_neg h] at hf; push_neg at h; linarith
  have hpos : (0 : ℚ) < min_duration := by norm_num [min_duration]
  exact ⟨hm, ne_of_gt (lt_of_lt_of_le hpos hm)⟩

/-- C10 witness: a send loop ending at elapsed 0 whose final measurement is
exactly the floor. -/
theorem session_elapsed_floor_witness :
    ((0 : ℚ) + sleep_amount 0 ≤ 1 / 10) ∧ (min_duration ≤ 1 / 10 ∧ (1 / 10 : ℚ) ≠ 0) :=
  ⟨by norm_num [sleep_amount, remaining_duration, min_duration],
   session_elapsed_floor 0 (1 / 10)
     (by norm_num [sleep_amount, remaining_duration, min_duration])⟩

/-- With a byte cap configured and the duration never reached, the send
loop terminates (given fuel beyond the remaining byte count) after sending
exactly the non-negative remaining bytes: each iteration sends
`min data_len remaining_bytes` and the loop breaks at the first iteration
where the remainder is no longer positive. -/
theorem client_send_loop_cap (cfg : ClientConfig) (times : Nat → ℚ)
    (htime : ∀ j, times j < cfg.time) (n : Int) (hnum : cfg.num = some n) :
    ∀ (fuel i : Nat) (st : ClientState), 0 < st.data_len → 0 ≤ st.remaining_bytes →
      st.remaining_bytes.toNat < fuel →
      ∃ st' e, client_send_loop cfg times fuel i st = some (st', e) ∧
        st'.total_sent = st.total_sent + st.remaining_bytes.toNat := by
  intro fuel
  induction fuel with
  | zero => intro i st _ _ h; omega
  | succ fuel ih =>
    intro i st hD hR hfuel
    have hnotime : ¬ cfg.time ≤ times i := not_le.mpr (htime i)
    by_cases h0 : st.remaining_bytes ≤ 0
    · have hrem0 : (fireInterval cfg (times i) st).remaining_bytes ≤ 0 := by
        rw [fireInterval_remaining_bytes]
        exact h0
      refine ⟨fireInterval cfg (times i) st, times i, ?_, ?_⟩
      · simp only [client_send_loop, if_neg hnotime, hnum, if_pos hrem0]
      · rw [fireInterval_total_sent]
        omega
    · push_neg at h0
      have hrempos : ¬ (fireInterval cfg (times i) st).remaining_bytes ≤ 0 := by
        rw [fireInterval_remaining_bytes]
        omega
      have hd : 0 < min (fireInterval cfg (times i) st).data_len
          (fireInterval cfg (times i) st).remaining_bytes.toNat := by
        rw [fireInterval_data_len, fireInterval_remaining_bytes]
        omega
      have hr2 : (0 : Int) ≤ (fireInterval cfg (times i) st).remaining_bytes -
          (min (fireInterval cfg (times i) st).data_len
            (fireInterval cfg (times i) st).remaining_bytes.toNat : Nat) := by
        rw [fireInterval_data_len, fireInterval_remaining_bytes]
        omega
      have hf2 : ((fireInterval cfg (times i) st).remaining_bytes -
          (min (fireInterval cfg (times i) st).data_len
            (fireInterval cfg (times i) st).remaining_bytes.toNat : Nat)).toNat < fuel := by
        rw [fireInterval_data_len, fireInterval_remaining_bytes]
        omega
      obtain ⟨st', e, heq, htot⟩ := ih (i + 1)
        { fireInterval cfg (times i) st with
          data_len := min (fireInterval cfg (times i) st).data_len
            (fireInterval cfg (times i) st).remaining_bytes.toNat
          remaining_bytes := (fireInterval cfg (times i) st).remaining_bytes -
            (min (fireInterval cfg (times i) st).data_len
              (fireInterval cfg (times i) st).remaining_bytes.toNat : Nat)
          total_sent := (fireInterval cfg (times i) st).total_sent +
            min (fireInterval cfg (times i) st).data_len
              (fireInterval cfg (times i) st).remaining_bytes.toNat }
        hd hr2 hf2
      refine ⟨st', e, ?_, ?_⟩
      · simp only [client_send_loop, if_neg hnotime, hnum, if_neg hrempos]
        exact heq
      · simp only [fireInterval_total_sent, fireInterval_remaining_bytes,
          fireInterval_data_len] at htot
        rw [htot]
        omega

/-- C2: byte-cap exactness: with cap `N` configured and the duration never
elapsing first, the send loop stops exactly at `N` cumulative payload
bytes (the sentinel is sent separately afterwards), whether or not `N` is
a multiple of the 1000-byte chunk. -/
theorem byte_cap_exact (cfg : ClientConfig) (times : Nat → ℚ) (N fuel : Nat)
    (hnum : cfg.num = some (N : Int))
    (htime : ∀ j, times j < cfg.time)
    (hfuel : N < fuel) :
    ∃ st' e, client_send_loop cfg times fuel 0 (initState cfg) = some (st', e) ∧
      st'.total_sent = N := by
  obtain ⟨st', e, heq, htot⟩ := client_send_loop_cap cfg times htime (N : Int) hnum fuel 0
    (initState cfg)
    (by norm_num [initState, BUFFER_SIZE])
    (by simp [initState, hnum])
    (by simp [initState, hnum]; omega)
  refine ⟨st', e, heq, ?_⟩
  rw [htot]
  simp [initState, hnum]

/-- C2 witness: a 2500-byte cap (not a multiple of the chunk size) sends
exactly 2500 bytes. -/
theorem byte_cap_exact_witness :
    ∃ st' e,
      client_send_loop ⟨0, 1, some 2500⟩ (fun _ => 0) 2501 0 (initState ⟨0, 1, some 2500⟩) =
        some (st', e) ∧ st'.total_sent = 2500 :=
  byte_cap_exact ⟨0, 1, some 2500⟩ (fun _ => 0) 2500 2501 rfl
    (fun j => by norm_num) (by norm_num)

/-- Appending the next window to the first `k` windows gives the first
`k + 1` windows. -/
theorem windows_succ (I : ℚ) (k : Nat) :
    windows I (k + 1) = windows I k ++ [((k : ℚ) * I, ((k : ℚ) + 1) * I)] := by
  simp [windows, List.range_succ]

/-- The fixed-step windows are contiguous: each window's stop is the next
window's start. -/
theorem chain'_windows (I : ℚ) : ∀ k, List.Chain' (fun a b => a.2 = b.1) (windows I k)
  | 0 => by simp [windows]
  | 1 => by
    unfold windows
    rw [show List.range 1 = [0] from rfl]
    simp
  | k + 2 => by
    rw [windows_succ]
    refine List.Chain'.append (chain'_windows I (k + 1)) (by simp) ?_
    intro x hx y hy
    rw [windows_succ, List.getLast?_concat] at hx
    simp only [Option.mem_def, Option.some.injEq] at hx
    simp only [List.head?_cons, Option.mem_def, Option.some.injEq] at hy
    subst hx
    subst hy
    show ((k : ℚ) + 1) * I = ((k + 1 : Nat) : ℚ) * I
    push_cast
    ring

/-- Firing the interval reporter preserves the window invariant: the
printed windows are exactly the first `k` windows, the current window is
`[k*I, (k+1)*I)`, and a fire appends window `k` and moves to `k+1`. -/
theorem fireInterval_windows (cfg : ClientConfig) (e : ℚ) (st : ClientState) (k : Nat)
    (hev : st.events = windows cfg.interval k)
    (hstart : st.interval_start = (k : ℚ) * cfg.interval)
    (hstop : st.interval_stop = ((k : ℚ) + 1) * cfg.interval) :
    ∃ k', (fireInterval cfg e st).events = windows cfg.interval k' ∧
      (fireInterval cfg e st).interval_start = (k' : ℚ) * cfg.interval ∧
      (fireInterval cfg e st).interval_stop = ((k' : ℚ) + 1) * cfg.interval := by
  unfold fireInterval
  split
  · refine ⟨k + 1, ?_, ?_, ?_⟩
    · show st.events ++ [(st.interval_start, st.interval_stop)] = windows cfg.interval (k + 1)
      rw [hev, hstart, hstop]
      simp [windows, List.range_succ]
    · show st.interval_stop = ((k + 1 : Nat) : ℚ) * cfg.interval
      rw [hstop]
      push_cast
      ring
    · show st.interval_stop + cfg.interval = (((k + 1 : Nat) : ℚ) + 1) * cfg.interval
      rw [hstop]
      push_cast
      ring
  · exact ⟨k, hev, hstart, hstop⟩

/-- Through the whole send loop, the printed interval windows remain an
initial run of the fixed-step windows. -/
theorem client_send_loop_windows (cfg : ClientConfig) (times : Nat → ℚ) :
    ∀ (fuel i : Nat) (st : ClientState) (k : Nat),
      st.events = windows cfg.interval k →
      st.interval_start = (k : ℚ) * cfg.interval →
      st.interval_stop = ((k : ℚ) + 1) * cfg.interval →
      ∀ (st' : ClientState) (e : ℚ),
        client_send_loop cfg times fuel i st = some (st', e) →
        ∃ k', st'.events = windows cfg.interval k' := by
  intro fuel
  induction fuel with
  | zero =>
    intro i st k _ _ _ st' e h
    exact absurd h (by simp [client_send_loop])
  | succ fuel ih =>
    intro i st k hev hstart hstop st' e hrun
    obtain ⟨k1, h1, h2, h3⟩ := fireInterval_windows cfg (times i) st k hev hstart hstop
    by_cases ht : cfg.time ≤ times i
    · simp only [client_send_loop, if_pos ht, Option.some.injEq, Prod.mk.injEq] at hrun
      obtain ⟨rfl, rfl⟩ := hrun
      exact ⟨k1, h1⟩
    · cases hnum : cfg.num with
      | some n =>
        by_cases hrem : (fireInterval cfg (times i) st).remaining_bytes ≤ 0
        · simp only [client_send_loop, if_neg ht, hnum, if_pos hrem, Option.some.injEq,
            Prod.mk.injEq] at hrun
          obtain ⟨rfl, rfl⟩ := hrun
          exact ⟨k1, h1⟩
        · simp only [client_send_loop, if_neg ht, hnum, if_neg hrem] at hrun
          refine ih (i + 1) _ k1 ?_ ?_ ?_ st' e hrun
          · exact h1
          · exact h2
          · exact h3
      | none =>
        simp only [client_send_loop, if_neg ht, hnum] at hrun
        refine ih (i + 1) _ k1 ?_ ?_ ?_ st' e hrun
        · exact h1
        · exact h2
        · exact h3

/-- With a zero interval the reporter never fires, so the loop never
records an interval row. -/
theorem client_send_loop_events_of_interval_zero (cfg : ClientConfig) (times : Nat → ℚ)
    (hI : cfg.interval = 0) :
    ∀ (fuel i : Nat) (st st' : ClientState) (e : ℚ),
      client_send_loop cfg times fuel i st = some (st', e) →
      st'.events = st.events := by
  intro fuel
  induction fuel with
  | zero =>
    intro i st st' e h
    exact absurd h (by simp [client_send_loop])
  | succ fuel ih =>
    intro i st st' e hrun
    simp only [client_send_loop, fireInterval_of_interval_zero cfg hI] at hrun
    by_cases ht : cfg.time ≤ times i
    · rw [if_pos ht] at hrun
      simp only [Option.some.injEq, Prod.mk.injEq] at hrun
      obtain ⟨rfl, -⟩ := hrun
      rfl
    · rw [if_neg ht] at hrun
      cases hnum : cfg.num with
      | some n =>
        simp only [hnum] at hrun
        by_cases hrem : st.remaining_bytes ≤ 0
        · rw [if_pos hrem] at hrun
          simp only [Option.some.injEq, Prod.mk.injEq] at hrun
          obtain ⟨rfl, -⟩ := hrun
          rfl
        · rw [if_neg hrem] at hrun
          have h := ih (i + 1) _ st' e hrun
          exact h
      | none =>
        simp only [hnum] at hrun
        have h := ih (i + 1) _ st' e hrun
        exact h

/-- C7: within one session, a zero interval length means the reporter
never fires (no interval row is ever recorded); a positive interval length
yields windows that are an initial run `[0,I), [I,2I), ...` of fixed step,
hence non-overlapping, contiguous (`stop` of one is `start` of the next)
and strictly increasing. -/
theorem interval_windows (cfg : ClientConfig) (times : Nat → ℚ) (fuel : Nat)
    (st' : ClientState) (e : ℚ)
    (hrun : client_send_loop cfg times fuel 0 (initState cfg) = some (st', e)) :
    (cfg.interval = 0 → st'.events = []) ∧
    (∃ k, st'.events = windows cfg.interval k) ∧
    (0 < cfg.interval →
      (∀ w ∈ st'.events, w.1 < w.2) ∧
      st'.events.Chain' (fun a b => a.2 = b.1)) := by
  have hwin : ∃ k, st'.events = windows cfg.interval k := by
    refine client_send_loop_windows cfg times fuel 0 (initState cfg) 0 rfl ?_ ?_ st' e hrun
    · show (0 : ℚ) = ((0 : Nat) : ℚ) * cfg.interval
      push_cast
      ring
    · show cfg.interval = (((0 : Nat) : ℚ) + 1) * cfg.interval
      push_cast
      ring
  refine ⟨?_, hwin, ?_⟩
  · intro hI
    have h := client_send_loop_events_of_interval_zero cfg times hI fuel 0
      (initState cfg) st' e hrun
    simpa [initState] using h
  · intro hI
    obtain ⟨k, hk⟩ := hwin
    constructor
    · intro w hw
      rw [hk] at hw
      simp only [windows, List.mem_map, List.mem_range] at hw
      obtain ⟨j, hj, rfl⟩ := hw
      exact mul_lt_mul_of_pos_right (by linarith : (j : ℚ) < (j : ℚ) + 1) hI
    · rw [hk]
      exact chain'_windows cfg.interval k

/-- C7 witness: a run with interval 1 and elapsed readings 0, 1, 2, ...
that fires once. -/
theorem interval_windows_witness :
    (cfgW7.interval = 0 → stW7.events = []) ∧
    (∃ k, stW7.events = windows cfgW7.interval k) ∧
    (0 < cfgW7.interval →
      (∀ w ∈ stW7.events, w.1 < w.2) ∧
      stW7.events.Chain' (fun a b => a.2 = b.1)) :=
  interval_windows cfgW7 (fun i => (i : ℚ)) 5 stW7 1
    (by norm_num [client_send_loop, initState, fireInterval, BUFFER_SIZE, cfgW7, stW7])

/-- With every acknowledgment successful, the joined collection is exactly
one result per session, in spawn/insertion order. -/
theorem session_outcomes_all_ack (parallel : Nat) (serverip : String) (port : Nat)
    (fmt : FormatUnit) (totals : Nat → Nat) (elapseds : Nat → ℚ)
    (acks : Nat → Option (List Nat))
    (hall : ∀ j < parallel, acks j = some ACK_BYE) :
    results_collection (session_outcomes parallel serverip port fmt totals elapseds acks) =
      (List.range parallel).map (fun j =>
        { serverip := serverip, port := port, elapsed_time := elapseds j,
          sent_data := format_size_u ((totals j : Nat) : ℚ) fmt,
          rate := calculate_rate ((totals j : Nat) : ℚ) (elapseds j) }) := by
  have key : ∀ l : List Nat, (∀ j ∈ l, j < parallel) →
      l.filterMap
        (fun j => (client_finalize serverip port fmt (totals j) (elapseds j) (acks j)).1) =
      l.map (fun j =>
        ({ serverip := serverip, port := port, elapsed_time := elapseds j,
           sent_data := format_size_u ((totals j : Nat) : ℚ) fmt,
           rate := calculate_rate ((totals j : Nat) : ℚ) (elapseds j) } : SessionResult)) := by
    intro l
    induction l with
    | nil => intro _; rfl
    | cons j l ihl =>
      intro hl
      have hj : acks j = some ACK_BYE := hall j (hl j (by simp))
      have ihl' := ihl (fun d hd => hl d (by simp [hd]))
      have hfin : (client_finalize serverip port fmt (totals j) (elapseds j) (acks j)).1 =
          some { serverip := serverip, port := port, elapsed_time := elapseds j,
                 sent_data := format_size_u ((totals j : Nat) : ℚ) fmt,
                 rate := calculate_rate ((totals j : Nat) : ℚ) (elapseds j) } := by
        rw [hj]
        simp [client_finalize]
      simp only [List.filterMap_cons, List.map_cons, hfin, ihl']
  unfold results_collection session_outcomes
  rw [List.filterMap_map]
  exact key (List.range parallel) (fun j hj => List.mem_range.mp hj)

/-- C5: the orchestrator spawns exactly `parallel` sessions and, after all
join, prints the header exactly once and then one row per collected entry
in insertion order; each session appends at most once (it contributes one
optional result), so when every session succeeds the collection holds
exactly `parallel` entries — one per session, none duplicated or dropped —
and a failed session contributes no entry. -/
theorem orchestrator_aggregation (parallel : Nat) (serverip : String) (port : Nat)
    (fmt : FormatUnit) (totals : Nat → Nat) (elapseds : Nat → ℚ)
    (acks : Nat → Option (List Nat))
    (hall : ∀ j < parallel, acks j = some ACK_BYE) :
    (session_outcomes parallel serverip port fmt totals elapseds acks).length = parallel ∧
    results_collection (session_outcomes parallel serverip port fmt totals elapseds acks) =
      (List.range parallel).map (fun j =>
        { serverip := serverip, port := port, elapsed_time := elapseds j,
          sent_data := format_size_u ((totals j : Nat) : ℚ) fmt,
          rate := calculate_rate ((totals j : Nat) : ℚ) (elapseds j) }) ∧
    (results_collection
      (session_outcomes parallel serverip port fmt totals elapseds acks)).length = parallel ∧
    client_run_output parallel serverip port fmt totals elapseds acks =
      OutLine.header ::
        (results_collection
          (session_outcomes parallel serverip port fmt totals elapseds acks)).map
          OutLine.row ∧
    (client_run_output parallel serverip port fmt totals elapseds acks).count
      OutLine.header = 1 ∧
    (∀ os : List (Option SessionResult),
      results_collection (none :: os) = results_collection os) := by
  have hcoll := session_outcomes_all_ack parallel serverip port fmt totals elapseds acks hall
  refine ⟨?_, hcoll, ?_, rfl, ?_, fun os => rfl⟩
  · unfold session_outcomes
    simp
  · rw [hcoll]
    simp
  · unfold client_run_output orchestrator_output
    rw [List.count_cons_self]
    have hz : (List.map OutLine.row (results_collection
        (session_outcomes parallel serverip port fmt totals elapseds acks))).count
        OutLine.header = 0 := by
      rw [List.count_eq_zero]
      simp
    rw [hz]

/-- C5 witness: five successful sessions yield exactly five entries. -/
theorem orchestrator_aggregation_witness :
    (results_collection (session_outcomes 5 "10.0.0.2" 8088 FormatUnit.MB
      (fun _ => 5000) (fun _ => 1) (fun _ => some ACK_BYE))).length = 5 :=
  (orchestrator_aggregation 5 "10.0.0.2" 8088 FormatUnit.MB (fun _ => 5000) (fun _ => 1)
    (fun _ => some ACK_BYE) (fun _ _ => rfl)).2.2.1

end Simpleperf
